import Mathlib

/-!
Verification of the trivelastic request-processing pipeline.

The development shallowly embeds the Go sources:
* `pkg/sanitizer/sanitizer.go` (`Sanitizer.SanitizeJSON`, `Sanitizer.sanitizeArray`)
* the inline duplicate in the abandoned entry point `main.go`
  (`Main.sanitizeJSON`, `Main.sanitizeArray`)
* `internal/elasticsearch/client.go` (`ES.sendRequest`, `ES.IndexDocument`)
* `internal/worker/pool.go` (`Worker.processRequest` and an operational
  model of the pool's channel/worker discipline).

JSON values (Go `interface{}` holding decoded JSON) are modelled by `JValue`.
A Go `map[string]interface{}` is modelled as an association list
`List (String × JValue)`; Go map iteration order is arbitrary, the list
fixes one deterministic order, which none of the properties depend on.
-/

/-- A decoded JSON value, as stored in Go's `interface{}` after
`json.Unmarshal`: string, number, boolean, nil (JSON null),
`map[string]interface{}` (object) or `[]interface{}` (array). -/
inductive JValue where
  | str  : String → JValue
  | num  : Int → JValue
  | bool : Bool → JValue
  | null : JValue
  | obj  : List (String × JValue) → JValue
  | arr  : List JValue → JValue
deriving Repr

/-- Go's `value == "" || value == nil` on an `interface{}`: true exactly
when the interface holds the empty string or is nil. -/
def JValue.isEmptyStringOrNil : JValue → Bool
  | .str s => s == ""
  | .num _ => false
  | .bool _ => false
  | .null => true
  | .obj _ => false
  | .arr _ => false

namespace Sanitizer

mutual

/-- Embedding of `SanitizeJSON` from `pkg/sanitizer/sanitizer.go`
(lines 10–72): iterate over the entries of the map, skipping keys `"."`
and `".."`, skipping `"lastModifiedDate"` whose value is `""` or nil,
recursively sanitizing nested objects and arrays and keeping them only
when non-empty, keeping strings only when non-empty, and keeping every
other value (the Go `default:` branch, i.e. numbers and booleans, since
nil is handled as its own case here) unconditionally. -/
def SanitizeJSON : List (String × JValue) → List (String × JValue)
  | [] => []
  | (key, value) :: rest =>
    if key == "." || key == ".." then
      SanitizeJSON rest
    else if key == "lastModifiedDate" && value.isEmptyStringOrNil then
      SanitizeJSON rest
    else
      match value with
      | .obj v =>
        if (SanitizeJSON v).length > 0 then (key, .obj (SanitizeJSON v)) :: SanitizeJSON rest
        else SanitizeJSON rest
      | .arr v =>
        if (sanitizeArray v).length > 0 then (key, .arr (sanitizeArray v)) :: SanitizeJSON rest
        else SanitizeJSON rest
      | .str v =>
        if v ≠ "" then (key, .str v) :: SanitizeJSON rest
        else SanitizeJSON rest
      | .null => SanitizeJSON rest
      | .num n => (key, .num n) :: SanitizeJSON rest
      | .bool b => (key, .bool b) :: SanitizeJSON rest

/-- Embedding of `sanitizeArray` from `pkg/sanitizer/sanitizer.go`
(lines 75–117): recursively sanitize object and array elements keeping
them only when non-empty, and keep every other element unless it is nil.
Note there is no string case: the Go `default:` branch keeps any non-nil
scalar, empty strings included. -/
def sanitizeArray : List JValue → List JValue
  | [] => []
  | value :: rest =>
    match value with
    | .obj v =>
      if (SanitizeJSON v).length > 0 then .obj (SanitizeJSON v) :: sanitizeArray rest
      else sanitizeArray rest
    | .arr v =>
      if (sanitizeArray v).length > 0 then .arr (sanitizeArray v) :: sanitizeArray rest
      else sanitizeArray rest
    | .null => sanitizeArray rest
    | .str s => .str s :: sanitizeArray rest
    | .num n => .num n :: sanitizeArray rest
    | .bool b => .bool b :: sanitizeArray rest

end

end Sanitizer

namespace Main

mutual

/-- Embedding of the inline `sanitizeJSON` from the abandoned entry point
`main.go` (lines 47–83). Entry filtering is identical to
`Sanitizer.SanitizeJSON`; only the array helper differs. -/
def sanitizeJSON : List (String × JValue) → List (String × JValue)
  | [] => []
  | (key, value) :: rest =>
    if key == "." || key == ".." then
      sanitizeJSON rest
    else if key == "lastModifiedDate" && value.isEmptyStringOrNil then
      sanitizeJSON rest
    else
      match value with
      | .obj v =>
        if (sanitizeJSON v).length > 0 then (key, .obj (sanitizeJSON v)) :: sanitizeJSON rest
        else sanitizeJSON rest
      | .arr v =>
        if (sanitizeArray v).length > 0 then (key, .arr (sanitizeArray v)) :: sanitizeJSON rest
        else sanitizeJSON rest
      | .str v =>
        if v ≠ "" then (key, .str v) :: sanitizeJSON rest
        else sanitizeJSON rest
      | .null => sanitizeJSON rest
      | .num n => (key, .num n) :: sanitizeJSON rest
      | .bool b => (key, .bool b) :: sanitizeJSON rest

/-- Embedding of the inline `sanitizeArray` from `main.go` (lines 86–99):
unlike `Sanitizer.sanitizeArray`, it appends sanitized objects and arrays
without an emptiness check and appends every scalar element, nil included. -/
def sanitizeArray : List JValue → List JValue
  | [] => []
  | value :: rest =>
    match value with
    | .obj v => .obj (sanitizeJSON v) :: sanitizeArray rest
    | .arr v => .arr (sanitizeArray v) :: sanitizeArray rest
    | .str s => .str s :: sanitizeArray rest
    | .num n => .num n :: sanitizeArray rest
    | .bool b => .bool b :: sanitizeArray rest
    | .null => .null :: sanitizeArray rest

end

end Main

namespace Sanitizer

mutual

/-- A value that survives under a key of a sanitized Document: not the
empty string, not nil, and if an object or array then non-empty and
itself in sanitized normal form. -/
def normVal : JValue → Bool
  | .str s => s ≠ ""
  | .num _ => true
  | .bool _ => true
  | .null => false
  | .obj l => l.length > 0 && normEntries l
  | .arr l => l.length > 0 && normElems l

/-- Entries of a Document in sanitized normal form: no `"."` or `".."`
keys and every value admissible (`normVal`), recursively at every depth,
including Documents nested inside sequences. -/
def normEntries : List (String × JValue) → Bool
  | [] => true
  | (k, v) :: rest => k ≠ "." && k ≠ ".." && normVal v && normEntries rest

/-- Elements of a sequence in sanitized normal form: no nil element, and
object or array elements are non-empty and recursively normal. Scalar
elements other than nil (empty strings included) are admissible. -/
def normElems : List JValue → Bool
  | [] => true
  | v :: rest => normElemVal v && normElems rest

/-- A single sequence element admissible in sanitized output. -/
def normElemVal : JValue → Bool
  | .null => false
  | .obj l => l.length > 0 && normEntries l
  | .arr l => l.length > 0 && normElems l
  | .str _ => true
  | .num _ => true
  | .bool _ => true

end

mutual

/-- A JSON value containing no sequence (array) at any depth. On such
values the library sanitizer and the inline duplicate coincide. -/
def noArrVal : JValue → Bool
  | .str _ => true
  | .num _ => true
  | .bool _ => true
  | .null => true
  | .obj l => noArrEntries l
  | .arr _ => false

/-- Entries of a Document containing no sequence at any depth. -/
def noArrEntries : List (String × JValue) → Bool
  | [] => true
  | (_, v) :: rest => noArrVal v && noArrEntries rest

end

end Sanitizer

namespace ES

/-- Outcome of one `c.client.Do(req)` transport call inside
`sendRequest` (`internal/elasticsearch/client.go`): either the call
errors, or it yields a response with a status code and a body that is
readable (`some`) or fails to read (`none`). -/
inductive AttemptOutcome where
  | transportError (msg : String)
  | response (status : Nat) (body : Option String)

/-- Embedding of `sendRequest` (client.go lines 86–124), parametrised by
the transport outcome: a transport error is wrapped and returned; a
response with status ≥ 400 yields an error carrying the status code and
the response body when readable; any status < 400 is success (`none`). -/
def sendRequest : AttemptOutcome → Option String
  | .transportError msg => some ("error sending request: " ++ msg)
  | .response status body =>
    if status ≥ 400 then
      match body with
      | some b => some ("elasticsearch error: status=" ++ toString status ++ ", response=" ++ b)
      | none => some ("elasticsearch error: status=" ++ toString status ++ ", failed to read response")
    else none

/-- `maxRetries` constant from client.go line 18. -/
def maxRetries : Nat := 3

/-- Observable trace of `IndexDocument`'s retry loop: number of attempts
performed, number of fixed 1-second `time.Sleep(retryInterval)` calls
executed, and the returned value (`none` = nil error, success). -/
structure RetryResult where
  attemptsUsed : Nat
  sleeps : Nat
  result : Option String
deriving Repr, DecidableEq

/-- Embedding of the retry loop of `IndexDocument` (client.go lines
54–75): starting at attempt number `attempt` with `sleeps` sleeps already
performed, try `sendRequest`; on failure sleep one second and retry while
`attempt < maxRetries`, otherwise stop and wrap the last error. -/
def retryFrom (outcomes : Nat → AttemptOutcome) (attempt sleeps : Nat) : RetryResult :=
  match sendRequest (outcomes attempt) with
  | some err =>
    if attempt < maxRetries then retryFrom outcomes (attempt + 1) (sleeps + 1)
    else ⟨attempt, sleeps, some ("all retries failed: " ++ err)⟩
  | none => ⟨attempt, sleeps, none⟩
termination_by maxRetries + 1 - attempt
decreasing_by omega

/-- Embedding of `IndexDocument` (client.go lines 42–84) given the
transport outcome of each attempt (attempt numbers start at 1, as in the
Go `for attempt := 1; attempt <= maxRetries; attempt++` loop).
`json.Marshal` of a decoded JSON tree cannot fail, so the early-return
marshal branch is not modelled. -/
def IndexDocument (outcomes : Nat → AttemptOutcome) : RetryResult :=
  retryFrom outcomes 1 0

end ES

namespace Worker

/-- The combined outcome of `io.ReadAll(r.Body)` and
`json.Unmarshal(body, &data)` in `processRequest` (pool.go lines
96–118): a body read error, a JSON parse error, or the decoded Document.
The JSON literal `null` decodes into a nil map without error, and `{}`
into an empty map; both are `parsed []` here. -/
inductive Inbound where
  | readError (msg : String)
  | parseError (msg : String)
  | parsed (data : List (String × JValue))

/-- What `processRequest` writes to the `http.ResponseWriter`: either a
plain-text error via `http.Error` (which sets the given status code), or
a JSON object `{"status": ..., "message": ..., "data": ...}` via
`json.NewEncoder(w).Encode` (which, with no prior `WriteHeader` call,
is sent with HTTP status 200). -/
inductive ResponseBody where
  | text (msg : String)
  | jsonDoc (status message : String) (data : List (String × JValue))

/-- The HTTP status code and body written for one request. -/
structure Response where
  httpStatus : Nat
  body : ResponseBody

/-- Result of processing one Work Item: the response written, plus the
document handed to `p.es.IndexDocument`, when that call was reached. -/
structure ProcessResult where
  response : Response
  indexedDoc : Option (List (String × JValue))

/-- Embedding of `processRequest` (pool.go lines 76–145), parametrised by
the request method, the read/parse outcome, and the Indexing Client
result (`indexErr d = some e` models `p.es.IndexDocument(d)` returning
error `e`, `none` models nil). Non-POST methods get a 405 text error;
read and parse failures get 400 text errors; otherwise the decoded
Document is sanitized, handed to the Indexing Client, and echoed back as
`data` with status 200 and a success or warning JSON body. -/
def processRequest (method : String) (inbound : Inbound)
    (indexErr : List (String × JValue) → Option String) : ProcessResult :=
  if method ≠ "POST" then
    ⟨⟨405, .text "Only POST method is allowed"⟩, none⟩
  else
    match inbound with
    | .readError e => ⟨⟨400, .text ("Error reading body: " ++ e)⟩, none⟩
    | .parseError e => ⟨⟨400, .text ("Error parsing JSON: " ++ e)⟩, none⟩
    | .parsed data =>
      match indexErr (Sanitizer.SanitizeJSON data) with
      | some _ =>
        ⟨⟨200, .jsonDoc "warning" "Request processed but failed to store in Elasticsearch"
          (Sanitizer.SanitizeJSON data)⟩, some (Sanitizer.SanitizeJSON data)⟩
      | none =>
        ⟨⟨200, .jsonDoc "success" "Data processed successfully"
          (Sanitizer.SanitizeJSON data)⟩, some (Sanitizer.SanitizeJSON data)⟩

end Worker

namespace Pool

/-- Operational model of the worker pool of `internal/worker/pool.go`.
Work Items are identified by natural numbers. `queued` are the items
buffered in the `requests` channel (created by `NewPool` as
`make(chan *Request, numWorkers)`); `processing` are items dequeued by a
worker whose `processRequest` has not yet finished; `completed` are items
whose worker has fired `req.Done <- true`; `returned` are items whose
`Submit` call has returned after `<-done`. -/
structure State where
  queued : List Nat
  processing : List Nat
  completed : List Nat
  returned : List Nat
deriving Repr, DecidableEq

/-- The pool right after `NewPool`: everything empty. -/
def init : State := ⟨[], [], [], []⟩

/-- One scheduling step of the pool with `n` workers. `submit` models the
buffered-channel send `p.requests <- req` in `Submit`: it is enabled only
while the buffer holds fewer than `n` items (a full buffered channel
blocks the sender; there is no rejecting transition). `dequeue` models an
idle worker receiving from the channel in `for req := range p.requests`;
since each of the `n` workers processes at most one item at a time, it is
enabled only while fewer than `n` items are in processing. `finish`
models `processRequest` completing and firing `req.Done <- true`. `ret`
models `Submit`'s `<-done` returning, which requires the completion
signal of that very item. -/
inductive Step (n : Nat) : State → State → Prop
  | submit (s : State) (i : Nat) :
      s.queued.length < n →
      Step n s ⟨s.queued ++ [i], s.processing, s.completed, s.returned⟩
  | dequeue (s : State) (i : Nat) (rest : List Nat) :
      s.queued = i :: rest →
      s.processing.length < n →
      Step n s ⟨rest, s.processing ++ [i], s.completed, s.returned⟩
  | finish (s : State) (i : Nat) :
      i ∈ s.processing →
      Step n s ⟨s.queued, s.processing.erase i, s.completed ++ [i], s.returned⟩
  | ret (s : State) (i : Nat) :
      i ∈ s.completed →
      Step n s ⟨s.queued, s.processing, s.completed, s.returned ++ [i]⟩

/-- States the pool can reach from startup. -/
def Reachable (n : Nat) (s : State) : Prop :=
  Relation.ReflTransGen (Step n) init s

end Pool

namespace Sanitizer

/-- Sanitized output is in normal form: at every depth no dot keys, no
empty-string / nil / empty-object / empty-array values under keys, and in
sequences no nil elements and no empty object or array elements. -/
theorem sanitize_norm :
    (∀ l, normEntries (SanitizeJSON l) = true) ∧
    (∀ a, normElems (sanitizeArray a) = true) := by
  apply SanitizeJSON.mutual_induct
    (fun l => normEntries (SanitizeJSON l) = true)
    (fun a => normElems (sanitizeArray a) = true)
  all_goals intros
  all_goals try simp_all [SanitizeJSON, sanitizeArray, normEntries, normElems, normVal,
    normElemVal, JValue.isEmptyStringOrNil]
  case case2 =>
    rename_i key value rest h ih
    rcases h with h | h <;> subst h <;> cases value <;> simp_all [SanitizeJSON]
  case case3 =>
    rename_i key value rest h ih
    obtain ⟨rfl, h2⟩ := h
    cases value <;> simp_all [SanitizeJSON, JValue.isEmptyStringOrNil]

/-- Normal forms are fixed points of sanitization. -/
theorem sanitize_fix :
    (∀ l, normEntries l = true → SanitizeJSON l = l) ∧
    (∀ a, normElems a = true → sanitizeArray a = a) := by
  apply SanitizeJSON.mutual_induct
    (fun l => normEntries l = true → SanitizeJSON l = l)
    (fun a => normElems a = true → sanitizeArray a = a)
  all_goals intros
  all_goals try simp_all [SanitizeJSON, sanitizeArray, normEntries, normElems, normVal,
    normElemVal, JValue.isEmptyStringOrNil]
  case case3 =>
    rename_i key value rest h ih hn
    obtain ⟨rfl, h2⟩ := h
    cases value <;> simp_all [normVal, JValue.isEmptyStringOrNil]
end Sanitizer

/-- Unfolding of the retry loop: with at most 3 attempts, `IndexDocument`
is the three-way case split on the outcomes of attempts 1, 2 and 3. -/
theorem ES.IndexDocument_eq (outcomes : Nat → ES.AttemptOutcome) :
    ES.IndexDocument outcomes =
      match ES.sendRequest (outcomes 1) with
      | none => ⟨1, 0, none⟩
      | some _ =>
        match ES.sendRequest (outcomes 2) with
        | none => ⟨2, 1, none⟩
        | some _ =>
          match ES.sendRequest (outcomes 3) with
          | none => ⟨3, 2, none⟩
          | some e => ⟨3, 2, some ("all retries failed: " ++ e)⟩ := by
  unfold ES.IndexDocument
  rw [ES.retryFrom, ES.retryFrom, ES.retryFrom]
  rcases h1 : ES.sendRequest (outcomes 1) with _ | e1 <;>
    rcases h2 : ES.sendRequest (outcomes 2) with _ | e2 <;>
      rcases h3 : ES.sendRequest (outcomes 3) with _ | e3 <;>
        simp [h1, h2, h3, ES.maxRetries]

/-- A pool step preserves the queue and processing bounds. -/
theorem pool_step_bounds {n : Nat} {s t : Pool.State} (h : Pool.Step n s t)
    (hq : s.queued.length ≤ n) (hp : s.processing.length ≤ n) :
    t.queued.length ≤ n ∧ t.processing.length ≤ n := by
  cases h with
  | submit i hlt => refine ⟨?_, hp⟩; simp; omega
  | dequeue i rest hqe hlt =>
    refine ⟨?_, ?_⟩
    · have : s.queued.length = rest.length + 1 := by rw [hqe]; simp
      simp; omega
    · simp; omega
  | finish i hmem =>
    refine ⟨hq, ?_⟩
    calc (s.processing.erase i).length ≤ s.processing.length :=
          List.length_erase_le i s.processing
      _ ≤ n := hp
  | ret i hmem => exact ⟨hq, hp⟩

/-- C1, counterexample: the claim also asserts that a `"lastModifiedDate"`
key with any value other than the empty string or null is kept, but for
the value `{}` — which the code's own emptiness test classifies as
neither empty string nor nil — the key is dropped (as an empty nested
Document). -/
theorem C1_counterexample :
    Sanitizer.SanitizeJSON [("lastModifiedDate", JValue.obj [])] = [] ∧
    (JValue.obj []).isEmptyStringOrNil = false := by
  constructor
  · simp [Sanitizer.SanitizeJSON, JValue.isEmptyStringOrNil]
  · rfl

/-- C1 (amended): sanitized output satisfies, at every nesting depth
(including Documents nested inside sequences), the invariant: no key
`"."` or `".."`, and no key whose value is an empty string, nil, an empty
nested Document, or an empty sequence (hence in particular no
`"lastModifiedDate"` entry with value empty string or nil); and a
`"lastModifiedDate"` key whose value is a non-empty string, a number, or
a boolean is kept — composite values remain subject to the generic
emptiness rules. -/
theorem C1_sanitized_invariant :
    (∀ l, Sanitizer.normEntries (Sanitizer.SanitizeJSON l) = true) ∧
    (∀ s rest, s ≠ "" →
      Sanitizer.SanitizeJSON (("lastModifiedDate", JValue.str s) :: rest) =
        ("lastModifiedDate", JValue.str s) :: Sanitizer.SanitizeJSON rest) ∧
    (∀ n rest,
      Sanitizer.SanitizeJSON (("lastModifiedDate", JValue.num n) :: rest) =
        ("lastModifiedDate", JValue.num n) :: Sanitizer.SanitizeJSON rest) ∧
    (∀ b rest,
      Sanitizer.SanitizeJSON (("lastModifiedDate", JValue.bool b) :: rest) =
        ("lastModifiedDate", JValue.bool b) :: Sanitizer.SanitizeJSON rest) := by
  refine ⟨Sanitizer.sanitize_norm.1, ?_, ?_, ?_⟩
  · intro s rest h
    simp [Sanitizer.SanitizeJSON, JValue.isEmptyStringOrNil, h]
  · intro n rest
    simp [Sanitizer.SanitizeJSON, JValue.isEmptyStringOrNil]
  · intro b rest
    simp [Sanitizer.SanitizeJSON, JValue.isEmptyStringOrNil]

/-- C1, witness: the spec's positive `lastModifiedDate` example. -/
theorem C1_witness :
    Sanitizer.SanitizeJSON [("lastModifiedDate", JValue.str "2024-01-01")] =
      [("lastModifiedDate", JValue.str "2024-01-01")] := by
  have h := C1_sanitized_invariant.2.1 "2024-01-01" [] (by decide)
  simpa [Sanitizer.SanitizeJSON] using h

/-- C2: `IndexDocument` makes at most 3 attempts; an attempt fails iff
the transport call errors or the response status is ≥ 400 (status < 400
succeeds); if the first k−1 attempts fail and attempt k (k ≤ 3) succeeds,
the call returns success after exactly k attempts and k−1 one-second
sleeps (one between each pair of consecutive failed attempts, none after
the last attempt, no backoff); if all 3 attempts fail it returns after
exactly 3 attempts and 2 sleeps with an error wrapping the cause observed
on the last attempt (transport error message, or status code plus
response body when readable, per `sendRequest`). -/
theorem C2_retry_policy (outcomes : Nat → ES.AttemptOutcome) :
    (ES.IndexDocument outcomes).attemptsUsed ≤ 3 ∧
    (∀ m, ES.sendRequest (.transportError m) ≠ none) ∧
    (∀ st b, 400 ≤ st → ES.sendRequest (.response st b) ≠ none) ∧
    (∀ st b, st < 400 → ES.sendRequest (.response st b) = none) ∧
    (∀ k, 1 ≤ k → k ≤ 3 →
      (∀ j, 1 ≤ j → j < k → ES.sendRequest (outcomes j) ≠ none) →
      ES.sendRequest (outcomes k) = none →
      ES.IndexDocument outcomes = ⟨k, k - 1, none⟩) ∧
    ((∀ j, 1 ≤ j → j ≤ 3 → ES.sendRequest (outcomes j) ≠ none) →
      ∃ e, ES.sendRequest (outcomes 3) = some e ∧
        ES.IndexDocument outcomes = ⟨3, 2, some ("all retries failed: " ++ e)⟩) := by
  have heq := ES.IndexDocument_eq outcomes
  refine ⟨?_, ?_, ?_, ?_, ?_, ?_⟩
  · rcases h1 : ES.sendRequest (outcomes 1) with _ | e1 <;>
      rcases h2 : ES.sendRequest (outcomes 2) with _ | e2 <;>
        rcases h3 : ES.sendRequest (outcomes 3) with _ | e3 <;>
          simp [heq, h1, h2, h3]
  · intro m; simp [ES.sendRequest]
  · intro st b h; cases b <;> simp [ES.sendRequest, h]
  · intro st b h; cases b <;> simp [ES.sendRequest, Nat.not_le.mpr h]
  · intro k hk1 hk3 hprev hk
    interval_cases k
    · rw [heq, hk]
    · have h1 : ES.sendRequest (outcomes 1) ≠ none := hprev 1 (by omega) (by omega)
      rcases hh1 : ES.sendRequest (outcomes 1) with _ | e1
      · exact absurd hh1 h1
      · rw [heq, hh1, hk]
    · have h1 : ES.sendRequest (outcomes 1) ≠ none := hprev 1 (by omega) (by omega)
      have h2 : ES.sendRequest (outcomes 2) ≠ none := hprev 2 (by omega) (by omega)
      rcases hh1 : ES.sendRequest (outcomes 1) with _ | e1
      · exact absurd hh1 h1
      rcases hh2 : ES.sendRequest (outcomes 2) with _ | e2
      · exact absurd hh2 h2
      rw [heq, hh1, hh2, hk]
  · intro hall
    have h1 := hall 1 (by omega) (by omega)
    have h2 := hall 2 (by omega) (by omega)
    have h3 := hall 3 (by omega) (by omega)
    rcases hh1 : ES.sendRequest (outcomes 1) with _ | e1
    · exact absurd hh1 h1
    rcases hh2 : ES.sendRequest (outcomes 2) with _ | e2
    · exact absurd hh2 h2
    rcases hh3 : ES.sendRequest (outcomes 3) with _ | e3
    · exact absurd hh3 h3
    exact ⟨e3, rfl, by rw [heq, hh1, hh2, hh3]⟩

/-- C2, witness: a transport that always answers 500 yields exactly 3
attempts, 2 sleeps, and the wrapped last cause. -/
theorem C2_witness :
    ES.IndexDocument (fun _ => ES.AttemptOutcome.response 500 (some "boom")) =
      ⟨3, 2, some "all retries failed: elasticsearch error: status=500, response=boom"⟩ := by
  obtain ⟨e, he, hr⟩ :=
    (C2_retry_policy (fun _ => ES.AttemptOutcome.response 500 (some "boom"))).2.2.2.2.2
      (by intro j h1 h2; simp [ES.sendRequest])
  have hse : ES.sendRequest (ES.AttemptOutcome.response 500 (some "boom")) =
      some "elasticsearch error: status=500, response=boom" := rfl
  rw [hse] at he
  cases he
  simpa using hr

/-- C3: sanitization is idempotent — sanitizing a second time changes
nothing, since sanitized output is in normal form and normal forms are
fixed points. -/
theorem C3_idempotent (l : List (String × JValue)) :
    Sanitizer.SanitizeJSON (Sanitizer.SanitizeJSON l) = Sanitizer.SanitizeJSON l :=
  Sanitizer.sanitize_fix.1 _ (Sanitizer.sanitize_norm.1 l)

/-- C4, counterexample: the claim says a scalar sequence element passes
the same emptiness filter as keyed scalars, so an empty-string element
would be dropped (leaving the sequence empty and the pair removed); the
code keeps empty-string elements of sequences — only nil elements are
dropped — so the pair survives unchanged. -/
theorem C4_counterexample :
    Sanitizer.SanitizeJSON [("a", JValue.arr [JValue.str ""])] =
      [("a", JValue.arr [JValue.str ""])] ∧
    Sanitizer.sanitizeArray [JValue.str ""] = [JValue.str ""] := by
  constructor <;> simp [Sanitizer.SanitizeJSON, Sanitizer.sanitizeArray]

/-- C4 (amended): every sequence element is sanitized — nested Documents
and nested sequences recursively, each kept only when its sanitized form
is non-empty; scalar elements are dropped only when nil (an empty-string
element is kept, unlike an empty-string keyed value); and a key mapping
to a sequence survives exactly when the sanitized sequence is non-empty. -/
theorem C4_sequence_rules :
    (∀ d rest, Sanitizer.SanitizeJSON d ≠ [] →
      Sanitizer.sanitizeArray (JValue.obj d :: rest) =
        JValue.obj (Sanitizer.SanitizeJSON d) :: Sanitizer.sanitizeArray rest) ∧
    (∀ d rest, Sanitizer.SanitizeJSON d = [] →
      Sanitizer.sanitizeArray (JValue.obj d :: rest) = Sanitizer.sanitizeArray rest) ∧
    (∀ a rest, Sanitizer.sanitizeArray a ≠ [] →
      Sanitizer.sanitizeArray (JValue.arr a :: rest) =
        JValue.arr (Sanitizer.sanitizeArray a) :: Sanitizer.sanitizeArray rest) ∧
    (∀ a rest, Sanitizer.sanitizeArray a = [] →
      Sanitizer.sanitizeArray (JValue.arr a :: rest) = Sanitizer.sanitizeArray rest) ∧
    (∀ rest, Sanitizer.sanitizeArray (JValue.null :: rest) = Sanitizer.sanitizeArray rest) ∧
    (∀ s rest, Sanitizer.sanitizeArray (JValue.str s :: rest) =
      JValue.str s :: Sanitizer.sanitizeArray rest) ∧
    (∀ n rest, Sanitizer.sanitizeArray (JValue.num n :: rest) =
      JValue.num n :: Sanitizer.sanitizeArray rest) ∧
    (∀ b rest, Sanitizer.sanitizeArray (JValue.bool b :: rest) =
      JValue.bool b :: Sanitizer.sanitizeArray rest) ∧
    (∀ k a rest, ¬k = "." → ¬k = ".." → Sanitizer.sanitizeArray a ≠ [] →
      Sanitizer.SanitizeJSON ((k, JValue.arr a) :: rest) =
        (k, JValue.arr (Sanitizer.sanitizeArray a)) :: Sanitizer.SanitizeJSON rest) ∧
    (∀ k a rest, Sanitizer.sanitizeArray a = [] →
      Sanitizer.SanitizeJSON ((k, JValue.arr a) :: rest) = Sanitizer.SanitizeJSON rest) := by
  refine ⟨?_, ?_, ?_, ?_, ?_, ?_, ?_, ?_, ?_, ?_⟩
  · intro d rest h
    simp [Sanitizer.sanitizeArray, List.length_pos, h]
  · intro d rest h
    simp [Sanitizer.sanitizeArray, h]
  · intro a rest h
    simp [Sanitizer.sanitizeArray, List.length_pos, h]
  · intro a rest h
    simp [Sanitizer.sanitizeArray, h]
  · intro rest; simp [Sanitizer.sanitizeArray]
  · intro s rest; simp [Sanitizer.sanitizeArray]
  · intro n rest; simp [Sanitizer.sanitizeArray]
  · intro b rest; simp [Sanitizer.sanitizeArray]
  · intro k a rest h1 h2 h
    simp [Sanitizer.SanitizeJSON, JValue.isEmptyStringOrNil, List.length_pos, h1, h2, h]
  · intro k a rest h
    by_cases h1 : k = "." <;> by_cases h2 : k = ".." <;>
      simp_all [Sanitizer.SanitizeJSON, JValue.isEmptyStringOrNil]

/-- C4, witness: a non-empty nested Document element is sanitized and
kept. -/
theorem C4_witness :
    Sanitizer.sanitizeArray [JValue.obj [("x", JValue.num 1)]] =
      [JValue.obj [("x", JValue.num 1)]] := by
  rw [C4_sequence_rules.1 [("x", JValue.num 1)] [] (by simp [Sanitizer.SanitizeJSON])]
  simp [Sanitizer.SanitizeJSON, Sanitizer.sanitizeArray]

/-- C5: when the Indexing Client returns an error (delivery failure after
its retries), `processRequest` responds with HTTP status 200 — not an
error status — and the JSON body with status `"warning"`, the message
`"Request processed but failed to store in Elasticsearch"`, and the
sanitized Document (not the original input) as `data`. -/
theorem C5_warning_response (data : List (String × JValue))
    (outcomes : Nat → ES.AttemptOutcome)
    (h : (ES.IndexDocument outcomes).result ≠ none) :
    Worker.processRequest "POST" (.parsed data)
      (fun _ => (ES.IndexDocument outcomes).result) =
    ⟨⟨200, .jsonDoc "warning" "Request processed but failed to store in Elasticsearch"
        (Sanitizer.SanitizeJSON data)⟩,
      some (Sanitizer.SanitizeJSON data)⟩ := by
  rcases hr : (ES.IndexDocument outcomes).result with _ | e
  · exact absurd hr h
  · simp [Worker.processRequest, hr]

/-- C5, witness: a sanitized-to-empty document with an always-500
transport gets the 200 warning response echoing the sanitized (empty)
document. -/
theorem C5_witness :
    Worker.processRequest "POST" (.parsed [("empty", JValue.str "")])
      (fun _ => (ES.IndexDocument (fun _ => ES.AttemptOutcome.response 500 none)).result) =
    ⟨⟨200, .jsonDoc "warning" "Request processed but failed to store in Elasticsearch" []⟩,
      some []⟩ := by
  have h := C5_warning_response [("empty", JValue.str "")]
    (fun _ => ES.AttemptOutcome.response 500 none)
    (by rw [ES.IndexDocument_eq]; simp [ES.sendRequest])
  rw [h]
  simp [Sanitizer.SanitizeJSON]

/-- C6: a nested Document or sequence whose sanitization is empty is
absent from the output — dropped with its key from the enclosing
Document, and dropped from the surviving elements of its enclosing
sequence. -/
theorem C6_empty_propagation :
    (∀ k d rest, Sanitizer.SanitizeJSON d = [] →
      Sanitizer.SanitizeJSON ((k, JValue.obj d) :: rest) = Sanitizer.SanitizeJSON rest) ∧
    (∀ k a rest, Sanitizer.sanitizeArray a = [] →
      Sanitizer.SanitizeJSON ((k, JValue.arr a) :: rest) = Sanitizer.SanitizeJSON rest) ∧
    (∀ d rest, Sanitizer.SanitizeJSON d = [] →
      Sanitizer.sanitizeArray (JValue.obj d :: rest) = Sanitizer.sanitizeArray rest) ∧
    (∀ a rest, Sanitizer.sanitizeArray a = [] →
      Sanitizer.sanitizeArray (JValue.arr a :: rest) = Sanitizer.sanitizeArray rest) := by
  refine ⟨?_, ?_, ?_, ?_⟩
  · intro k d rest h
    by_cases h1 : k = "." <;> by_cases h2 : k = ".." <;>
      simp_all [Sanitizer.SanitizeJSON, JValue.isEmptyStringOrNil]
  · intro k a rest h
    by_cases h1 : k = "." <;> by_cases h2 : k = ".." <;>
      simp_all [Sanitizer.SanitizeJSON, JValue.isEmptyStringOrNil]
  · intro d rest h
    simp [Sanitizer.sanitizeArray, h]
  · intro a rest h
    simp [Sanitizer.sanitizeArray, h]

/-- C6, witness: a nested Document whose only key is stripped vanishes
with its key. -/
theorem C6_witness :
    Sanitizer.SanitizeJSON [("x", JValue.obj [(".", JValue.num 1)])] = [] := by
  rw [C6_empty_propagation.1 "x" [(".", JValue.num 1)] []
    (by simp [Sanitizer.SanitizeJSON])]
  simp [Sanitizer.SanitizeJSON]

/-- C7: boolean `false` and numeric `0` are never treated as empty: under
any non-dot key (including `"lastModifiedDate"`) such a pair is kept, as
are `false` and `0` elements of sequences; in particular
`sanitize({"a": false, "b": 0})` keeps both pairs unchanged. -/
theorem C7_falsy_survival :
    (∀ k rest, ¬k = "." → ¬k = ".." →
      Sanitizer.SanitizeJSON ((k, JValue.bool false) :: rest) =
        (k, JValue.bool false) :: Sanitizer.SanitizeJSON rest) ∧
    (∀ k rest, ¬k = "." → ¬k = ".." →
      Sanitizer.SanitizeJSON ((k, JValue.num 0) :: rest) =
        (k, JValue.num 0) :: Sanitizer.SanitizeJSON rest) ∧
    (∀ rest, Sanitizer.sanitizeArray (JValue.bool false :: rest) =
      JValue.bool false :: Sanitizer.sanitizeArray rest) ∧
    (∀ rest, Sanitizer.sanitizeArray (JValue.num 0 :: rest) =
      JValue.num 0 :: Sanitizer.sanitizeArray rest) ∧
    Sanitizer.SanitizeJSON [("a", JValue.bool false), ("b", JValue.num 0)] =
      [("a", JValue.bool false), ("b", JValue.num 0)] := by
  refine ⟨?_, ?_, ?_, ?_, ?_⟩
  · intro k rest h1 h2
    simp [Sanitizer.SanitizeJSON, JValue.isEmptyStringOrNil, h1, h2]
  · intro k rest h1 h2
    simp [Sanitizer.SanitizeJSON, JValue.isEmptyStringOrNil, h1, h2]
  · intro rest; simp [Sanitizer.sanitizeArray]
  · intro rest; simp [Sanitizer.sanitizeArray]
  · simp [Sanitizer.SanitizeJSON, JValue.isEmptyStringOrNil]

/-- C7, witness: `false` survives under the key `"a"`. -/
theorem C7_witness :
    Sanitizer.SanitizeJSON [("a", JValue.bool false)] = [("a", JValue.bool false)] := by
  rw [C7_falsy_survival.1 "a" [] (by decide) (by decide)]
  simp [Sanitizer.SanitizeJSON]

/-- C8, counterexample: the two sanitizer implementations disagree — on
`{"a": [null]}` the library drops the nil element, leaving an empty array
that is removed with its key, while the inline duplicate keeps the nil
element and therefore the whole pair. -/
theorem C8_counterexample :
    Main.sanitizeJSON [("a", JValue.arr [JValue.null])] =
      [("a", JValue.arr [JValue.null])] ∧
    Sanitizer.SanitizeJSON [("a", JValue.arr [JValue.null])] = [] := by
  constructor
  · simp [Main.sanitizeJSON, Main.sanitizeArray]
  · simp [Sanitizer.SanitizeJSON, Sanitizer.sanitizeArray]

/-- C8 (amended): the two implementations agree on every Document that
contains no sequence at any depth; they differ inside sequences, where
the inline `sanitizeArray` keeps every element (nil elements and empty
sanitized Documents/sequences included) while the library version drops
them. -/
theorem C8_agree_no_sequences :
    ∀ l, Sanitizer.noArrEntries l = true →
      Main.sanitizeJSON l = Sanitizer.SanitizeJSON l := by
  suffices h : (∀ l, Sanitizer.noArrEntries l = true →
      Main.sanitizeJSON l = Sanitizer.SanitizeJSON l) ∧
      (∀ a : List JValue, True) from h.1
  apply Main.sanitizeJSON.mutual_induct
    (fun l => Sanitizer.noArrEntries l = true →
      Main.sanitizeJSON l = Sanitizer.SanitizeJSON l)
    (fun _ => True)
  all_goals intros
  all_goals try trivial
  all_goals try simp_all [Main.sanitizeJSON, Sanitizer.SanitizeJSON,
    Sanitizer.noArrEntries, Sanitizer.noArrVal, JValue.isEmptyStringOrNil]
  case case2 =>
    rename_i key value rest h ih hna
    rcases h with h | h <;> subst h <;> cases value <;>
      simp_all [Main.sanitizeJSON, Sanitizer.SanitizeJSON, Sanitizer.noArrEntries,
        Sanitizer.noArrVal]
  case case3 =>
    rename_i key value rest h ih hna
    obtain ⟨rfl, h2⟩ := h
    cases value <;>
      simp_all [Main.sanitizeJSON, Sanitizer.SanitizeJSON, Sanitizer.noArrEntries,
        Sanitizer.noArrVal, JValue.isEmptyStringOrNil]

/-- C8, witness: on a sequence-free Document with a nested object and a
stripped dot key both implementations give the same result. -/
theorem C8_witness :
    Main.sanitizeJSON [("a", JValue.obj [("b", JValue.str "x")]), (".", JValue.num 1)] =
      Sanitizer.SanitizeJSON [("a", JValue.obj [("b", JValue.str "x")]), (".", JValue.num 1)] :=
  C8_agree_no_sequences [("a", JValue.obj [("b", JValue.str "x")]), (".", JValue.num 1)]
    (by simp [Sanitizer.noArrEntries, Sanitizer.noArrVal])

/-- C9: in the operational pool model with worker count `n`, every
reachable state keeps at most `n` queued items (the intake channel has
capacity `n`) and at most `n` items in processing (admission bound); from
a full queue no step enqueues (the submitter blocks — there is no
rejecting transition in the model — and submission is enabled again
exactly when the queue is below capacity); and an item enters `returned`
(its `Submit` call returns) only once its completion has been signalled. -/
theorem C9_pool_bounds (n : Nat) :
    (∀ s, Pool.Reachable n s → s.queued.length ≤ n ∧ s.processing.length ≤ n) ∧
    (∀ s t, Pool.Step n s t → s.queued.length = n →
      t.queued.length < n ∨ t.queued = s.queued) ∧
    (∀ s i, s.queued.length < n →
      Pool.Step n s ⟨s.queued ++ [i], s.processing, s.completed, s.returned⟩) ∧
    (∀ s t, Pool.Step n s t → ∀ i, i ∈ t.returned → i ∈ s.returned ∨ i ∈ s.completed) := by
  refine ⟨?_, ?_, ?_, ?_⟩
  · intro s h
    induction h with
    | refl => simp [Pool.init]
    | tail hab hbc ih => exact pool_step_bounds hbc ih.1 ih.2
  · intro s t hst hfull
    cases hst with
    | submit i hlt => omega
    | dequeue i rest hqe hlt =>
      left
      have : s.queued.length = rest.length + 1 := by rw [hqe]; simp
      simp; omega
    | finish i hmem => right; rfl
    | ret i hmem => right; rfl
  · intro s i h
    exact Pool.Step.submit s i h
  · intro s t hst i hi
    cases hst with
    | submit j hlt => left; exact hi
    | dequeue j rest hqe hlt => left; exact hi
    | finish j hmem => left; exact hi
    | ret j hmem =>
      rcases List.mem_append.mp hi with h | h
      · left; exact h
      · right; simp at h; rw [h]; exact hmem

/-- C9, witness: the initial state of a one-worker pool is reachable and
satisfies both bounds. -/
theorem C9_witness :
    Pool.init.queued.length ≤ 1 ∧ Pool.init.processing.length ≤ 1 :=
  (C9_pool_bounds 1).1 Pool.init Relation.ReflTransGen.refl

/-- C10: a Document whose sanitization is empty — as arises from a `{}`
body, a `null` body (both decode to `parsed []`), or a body all of whose
keys are stripped — is not dropped at the root: it is still handed to the
Indexing Client and echoed as the `data` field of the HTTP 200 response
(success or warning, depending on the indexing outcome). -/
theorem C10_empty_root (data : List (String × JValue))
    (idx : List (String × JValue) → Option String)
    (h : Sanitizer.SanitizeJSON data = []) :
    (Worker.processRequest "POST" (.parsed data) idx).indexedDoc = some [] ∧
    (Worker.processRequest "POST" (.parsed data) idx).response.httpStatus = 200 ∧
    ((Worker.processRequest "POST" (.parsed data) idx).response.body =
        Worker.ResponseBody.jsonDoc "success" "Data processed successfully" [] ∨
      (Worker.processRequest "POST" (.parsed data) idx).response.body =
        Worker.ResponseBody.jsonDoc "warning"
          "Request processed but failed to store in Elasticsearch" []) := by
  rcases hi : idx [] with _ | e <;>
    simp [Worker.processRequest, h, hi]

/-- C10, witness: a Document whose only key is `"."` sanitizes to the
empty Document, which is still forwarded to the Indexing Client. -/
theorem C10_witness :
    (Worker.processRequest "POST" (.parsed [(".", JValue.num 1)])
      (fun _ => none)).indexedDoc = some [] :=
  (C10_empty_root [(".", JValue.num 1)] (fun _ => none)
    (by simp [Sanitizer.SanitizeJSON])).1
